import Mathlib

/-!
Shallow embedding of the Spelling B- daily game session engine
(src/app/game/page.tsx, src/hooks/useGameState.ts, src/hooks/useStreak.ts,
src/lib/share.ts, src/lib/utils.ts).

Modelling conventions:
* JavaScript numbers that can only hold small integers are modelled as
  `Nat` or `Int` (`Int` where the sign matters: scores, countdown timer,
  millisecond instants).
* `Math.floor(a / b)` on nonnegative JS numbers is `Nat` division; on
  possibly-negative values it is `Int` division (`Int.ediv`, which is
  floor division for a positive divisor).
* Calendar dates compared by the streak tracker are modelled as integer
  day indices, with "yesterday" being the predecessor index; the stored
  date string of a session snapshot is kept as a `String` compared for
  equality, exactly as the code compares `parsed.date === today`.
* `localStorage` is modelled per key as an `Option` of a stored entry; a
  stored entry either parses to a value or is corrupt (JSON.parse throws).
* React `useEffect` reactions (the countdown side effect and the
  save-on-change effects) are composed after each event, mirroring the
  run-to-completion event loop.
-/

namespace SpellingB

inductive Difficulty
  | easy
  | medium
  | hard
deriving DecidableEq, Repr

inductive GamePhase
  | ready
  | playing
  | finished
deriving DecidableEq, Repr

inductive GameMode
  | daily
  | practice
deriving DecidableEq, Repr

/-- A word entry as fetched from the `audio_files` table (page.tsx `Word`). -/
structure Word where
  id : Nat
  word : String
  definition : String
  audioUrl : String
  difficulty : Difficulty
deriving DecidableEq, Repr

/-- One step of the linear-congruential generator used by `seedRandom`
(page.tsx): `value = (value * 9301 + 49297) % 233280`. -/
def lcgNext (v : Nat) : Nat :=
  (v * 9301 + 49297) % 233280

/-- `Math.floor(rand() * bound)` where `rand()` returned `v / 233280`
for the freshly updated LCG state `v`.  Since `v < 233280`, this equals
the `Nat` division `v * bound / 233280`. -/
def lcgIndex (v bound : Nat) : Nat :=
  v * bound / 233280

/-- Swap two positions of an array, leaving the array unchanged when an
index is out of bounds (in the shuffle below both are always in bounds). -/
def swapAt (a : Array α) (i j : Nat) : Array α :=
  if h : i < a.size ∧ j < a.size then a.swap ⟨i, h.1⟩ ⟨j, h.2⟩ else a

/-- The Fisher-Yates loop of `deterministicShuffle` (page.tsx): for
`i = n-1` down to `1`, draw `j = Math.floor(rand() * (i + 1))` from the
LCG and swap positions `i` and `j`.  The argument `k` is the current
loop index. -/
def shuffleAux (a : Array α) (v : Nat) : Nat → Array α
  | 0 => a
  | k + 1 =>
      let v2 := lcgNext v
      let j := lcgIndex v2 (k + 2)
      shuffleAux (swapAt a (k + 1) j) v2 k

/-- `deterministicShuffle` (page.tsx): copies the input array and runs the
seeded Fisher-Yates loop over the copy. -/
def deterministicShuffle (l : List α) (seed : Nat) : List α :=
  (shuffleAux l.toArray seed (l.length - 1)).toList

def WORDS_PER_GAME : Nat := 3

/-- The difficulty-specific seed offset in `getTodayWords` (page.tsx):
`diff === "easy" ? 0 : diff === "medium" ? 10000 : 20000`. -/
def diffOffset : Difficulty → Nat
  | .easy => 0
  | .medium => 10000
  | .hard => 20000

/-- `getTodayWords` (page.tsx), with the day index (whole days between the
2023-01-01 reference date and LA midnight of today, see `selectionDayIndex`
below) supplied as an argument: filter the pool by difficulty, fall back to
an unfiltered 3-element slice when fewer than 3 match, otherwise take the
first 3 elements of the seeded deterministic shuffle of the filtered pool. -/
def getTodayWords (wordList : List Word) (diff : Difficulty) (dayIndex : Nat) : List Word :=
  let filteredWords := wordList.filter (fun w => w.difficulty == diff)
  if filteredWords.length < WORDS_PER_GAME then
    wordList.take WORDS_PER_GAME
  else
    (deterministicShuffle filteredWords (dayIndex + diffOffset diff)).take WORDS_PER_GAME

/-- JavaScript `String.prototype.trim()`: strip whitespace from both ends.
Implemented over the character list so that it evaluates by kernel
reduction; on the ASCII strings of this game it agrees with JS. -/
def jsTrim (s : String) : String :=
  ⟨((s.data.dropWhile fun c => c.isWhitespace).reverse.dropWhile
      fun c => c.isWhitespace).reverse⟩

/-- JavaScript `String.prototype.toLowerCase()`: on the ASCII strings of
this game it lowercases each character. -/
def jsToLower (s : String) : String :=
  ⟨s.data.map Char.toLower⟩

/-- The persisted session state (useGameState.ts `PersistedGameState`),
which is also the live session state `gameData` of the game page. -/
structure PersistedGameState where
  date : String
  gameState : GamePhase
  score : Int
  correctWordCount : Nat
  timeLeft : Int
  attempts : List String
  currentWordIndex : Nat
  userInput : String
deriving DecidableEq, Repr

def TOTAL_TIME : Int := 60

/-- The initial state object the game page passes to `useGameState`
(page.tsx), with the `date` field added by the hook. -/
def initialFields (today : String) : PersistedGameState :=
  { date := today
    gameState := .ready
    score := 0
    correctWordCount := 0
    timeLeft := TOTAL_TIME
    attempts := []
    currentWordIndex := 0
    userInput := "" }

/-- `setStateToInitial` (page.tsx): keeps the date, resets every game field,
sizing `attempts` to `WORDS_PER_GAME` empty strings. -/
def setStateToInitial (s : PersistedGameState) : PersistedGameState :=
  { s with
    gameState := .ready
    score := 0
    correctWordCount := 0
    timeLeft := TOTAL_TIME
    attempts := List.replicate WORDS_PER_GAME ""
    currentWordIndex := 0
    userInput := "" }

/-- `startGame` (page.tsx) for a Daily session: returns early (with a toast)
when the session is already `finished`, otherwise resets to the initial
state and transitions to `playing`. -/
def startGame (s : PersistedGameState) : PersistedGameState :=
  if s.gameState = .finished then s
  else { setStateToInitial s with gameState := .playing }

/-- `handleGameEnd` (page.tsx): adds the remaining time to the score and
transitions to `finished` (the `recordGame` streak side effect is modelled
separately on the streak store). -/
def handleGameEnd (s : PersistedGameState) : PersistedGameState :=
  { s with score := s.score + s.timeLeft, gameState := .finished }

/-- `handleSubmit` (page.tsx): no-op when there is no current word;
otherwise compare the trimmed, lowercased input against the trimmed,
lowercased canonical word, record the trimmed raw input into
`attempts[currentWordIndex]`, add 50 points and one correct word exactly
when the comparison succeeds, then either advance to the next word
(clearing the input) or transition to `finished`. -/
def handleSubmit (selectedWords : List Word) (s : PersistedGameState) : PersistedGameState :=
  match selectedWords[s.currentWordIndex]? with
  | none => s
  | some currentWord =>
      let userAttempt := jsToLower (jsTrim s.userInput)
      let isCorrect := userAttempt = jsToLower (jsTrim currentWord.word)
      let newAttempts := s.attempts.set s.currentWordIndex (jsTrim s.userInput)
      let newScore := if isCorrect then s.score + 50 else s.score
      let newCorrectWordCount :=
        if isCorrect then s.correctWordCount + 1 else s.correctWordCount
      let nextIndex := s.currentWordIndex + 1
      if nextIndex < selectedWords.length ∧ s.timeLeft > 0 then
        { s with
          score := newScore
          correctWordCount := newCorrectWordCount
          currentWordIndex := nextIndex
          userInput := ""
          attempts := newAttempts }
      else
        { s with
          score := newScore
          correctWordCount := newCorrectWordCount
          attempts := newAttempts
          gameState := .finished }

/-- The countdown decrement of the timer effect (page.tsx): only scheduled
while `gameState === "playing" && timeLeft > 0`. -/
def tick (s : PersistedGameState) : PersistedGameState :=
  if s.gameState = .playing ∧ s.timeLeft > 0 then
    { s with timeLeft := s.timeLeft - 1 }
  else s

/-- The reactive branch of the timer effect (page.tsx): whenever the state
satisfies `timeLeft === 0 && gameState === "playing"`, `handleGameEnd`
fires.  This runs after every state change. -/
def timerEffect (s : PersistedGameState) : PersistedGameState :=
  if s.gameState = .playing ∧ s.timeLeft = 0 then handleGameEnd s else s

/-- The keyboard handlers (page.tsx) mutate `userInput` only while
`playing`; appending a letter or deleting the last one are both instances
of replacing the buffer, so the event is modelled as setting it. -/
def setUserInput (inp : String) (s : PersistedGameState) : PersistedGameState :=
  if s.gameState = .playing then { s with userInput := inp } else s

/-- States of a Daily session reachable from the freshly initialized state
by the UI events of the game page, each followed by the reactive timer
effect. -/
inductive Reachable (selectedWords : List Word) : PersistedGameState → Prop
  | init (today : String) : Reachable selectedWords (initialFields today)
  | start {s : PersistedGameState} :
      Reachable selectedWords s → Reachable selectedWords (timerEffect (startGame s))
  | reset {s : PersistedGameState} :
      Reachable selectedWords s → Reachable selectedWords (timerEffect (setStateToInitial s))
  | input {s : PersistedGameState} (inp : String) :
      Reachable selectedWords s → Reachable selectedWords (timerEffect (setUserInput inp s))
  | submit {s : PersistedGameState} :
      Reachable selectedWords s →
      Reachable selectedWords (timerEffect (handleSubmit selectedWords s))
  | tick {s : PersistedGameState} :
      Reachable selectedWords s → Reachable selectedWords (timerEffect (tick s))

/-- A stored `localStorage` entry for the session key: either it parses to
a snapshot or `JSON.parse` throws on it. -/
inductive StoredSession
  | valid (p : PersistedGameState)
  | corrupt
deriving DecidableEq

/-- The fresh state `{ date: today, ...initialState }` built by
`useGameState` when nothing usable is stored. -/
def freshState (today : String) (initialState : PersistedGameState) : PersistedGameState :=
  { initialState with date := today }

/-- The `useState` initializer of `useGameState` (useGameState.ts): restore
the stored snapshot verbatim when it parses and its date equals today,
otherwise fall back to the fresh initial state (a parse error is caught
and also falls through to the fresh state). -/
def loadGameState (stored : Option StoredSession) (today : String)
    (initialState : PersistedGameState) : PersistedGameState :=
  match stored with
  | some (.valid parsed) =>
      if parsed.date = today then parsed else freshState today initialState
  | some .corrupt => freshState today initialState
  | none => freshState today initialState

/-- The save effect of `useGameState` (useGameState.ts): it runs on every
state change (and once on mount) and writes the state under the storage
key unconditionally — the game mode plays no role. -/
def saveStateEffect (mode : GameMode) (s : PersistedGameState)
    (store : Option StoredSession) : Option StoredSession :=
  some (.valid s)

/-- Mounting the hook: the state returned by the initializer together with
the store after the first run of the save effect. -/
def mountGameState (stored : Option StoredSession) (today : String)
    (initialState : PersistedGameState) (mode : GameMode) :
    PersistedGameState × Option StoredSession :=
  let s := loadGameState stored today initialState
  (s, saveStateEffect mode s stored)

/-- The streak record (useStreak.ts `StreakData`).  Calendar dates are
modelled as integer day indices; `getYesterdayDate` is the predecessor. -/
structure StreakData where
  currentStreak : Int
  longestStreak : Int
  lastPlayedDate : Option Int
  totalGamesPlayed : Int
  totalScore : Int
deriving DecidableEq, Repr

def initialStreakData : StreakData :=
  { currentStreak := 0
    longestStreak := 0
    lastPlayedDate := none
    totalGamesPlayed := 0
    totalScore := 0 }

/-- `recordGame` (useStreak.ts): same-day no-op; continue the streak when
the last play was yesterday; otherwise (first game or broken streak) start
at 1; then fold the new streak into the maximum and bump the totals. -/
def recordGame (score today : Int) (prev : StreakData) : StreakData :=
  let yesterday := today - 1
  if prev.lastPlayedDate = some today then prev
  else
    let newCurrentStreak : Int :=
      match prev.lastPlayedDate with
      | some l => if l = yesterday then prev.currentStreak + 1 else 1
      | none => 1
    { currentStreak := newCurrentStreak
      longestStreak := max newCurrentStreak prev.longestStreak
      lastPlayedDate := some today
      totalGamesPlayed := prev.totalGamesPlayed + 1
      totalScore := prev.totalScore + score }

/-- A stored `localStorage` entry for the streak key. -/
inductive StoredStreak
  | valid (d : StreakData)
  | corrupt
deriving DecidableEq

/-- The `useState` initializer of `useStreak` (useStreak.ts): a stored
record that parses is used as is; a parse error is caught and falls
through to `initialStreakData`. -/
def loadStreak : Option StoredStreak → StreakData
  | some (.valid d) => d
  | some .corrupt => initialStreakData
  | none => initialStreakData

/-- The save effect of `useStreak` (useStreak.ts): writes the record under
the streak key on every change and once on mount. -/
def saveStreakEffect (d : StreakData) (store : Option StoredStreak) : Option StoredStreak :=
  some (.valid d)

/-- Mounting `useStreak`: the record returned by the initializer together
with the store after the first run of the save effect. -/
def mountStreak (stored : Option StoredStreak) : StreakData × Option StoredStreak :=
  let d := loadStreak stored
  (d, saveStreakEffect d stored)

def msPerDay : Int := 86400000

/-- `getGameDayNumber` (share.ts), as a function of the current instant
`t` in milliseconds since the reference `2023-01-01T00:00:00Z` (what
`new Date("2023-01-01")` denotes): `Math.floor((now - reference) / day)`.
`Int` division is floor division for the positive divisor. -/
def getGameDayNumber (t : Int) : Int :=
  t / msPerDay

/-- The Los Angeles calendar date at instant `t`, as days since the LA
calendar day 2023-01-01, for a fixed UTC offset `laOffset` in
milliseconds (8h in winter, 7h in summer).  This is what `getTodayDate`
(utils.ts) denotes on the day-index scale. -/
def laDateIndex (t laOffset : Int) : Int :=
  (t - laOffset) / msPerDay

/-- `getLaMidnightUtc` (utils.ts) on the day-index scale: the instant of
LA midnight of calendar day `d`, in milliseconds since the reference. -/
def laMidnightUtc (d laOffset : Int) : Int :=
  d * msPerDay + laOffset

/-- The `diffDays` day index computed inside `getTodayWords` (page.tsx):
`Math.floor((getLaMidnightUtc(getTodayDate()) - referenceDate) / day)`. -/
def selectionDayIndex (t laOffset : Int) : Int :=
  laMidnightUtc (laDateIndex t laOffset) laOffset / msPerDay

/-! ### Concrete data used to evaluate the definitions -/

/-- The first entry of the demo pool. -/
def demoCat : Word := ⟨1, "cat", "a small feline", "cat.mp3", .easy⟩

/-- A small word pool with three easy words. -/
def demoWords : List Word :=
  [demoCat,
   ⟨2, "dog", "a loyal canine", "dog.mp3", .easy⟩,
   ⟨3, "sun", "our nearest star", "sun.mp3", .easy⟩]

/-- A playing state about to submit its first word, typed with stray
whitespace and capitals. -/
def submitState : PersistedGameState :=
  { date := "2025-06-05"
    gameState := .playing
    score := 0
    correctWordCount := 0
    timeLeft := 60
    attempts := ["", "", ""]
    currentWordIndex := 0
    userInput := " CaT " }

/-- A finished Daily snapshot as persisted at the end of a session. -/
def dailyFinishedSnapshot : PersistedGameState :=
  { date := "2025-06-05"
    gameState := .finished
    score := 150
    correctWordCount := 3
    timeLeft := 60
    attempts := ["cat", "dog", "sun"]
    currentWordIndex := 2
    userInput := "sun" }

/-- A Daily session over `demoWords` in which the player types each word
correctly and submits three times without a single timer tick: the last
submission transitions the session to `finished` with `timeLeft = 60`. -/
def fastPerfectRun : PersistedGameState :=
  timerEffect (handleSubmit demoWords
    (setUserInput "sun" (timerEffect (handleSubmit demoWords
      (setUserInput "dog" (timerEffect (handleSubmit demoWords
        (setUserInput "cat" (timerEffect (startGame (initialFields "2025-06-05")))))))))))

/-- A snapshot of a session that was persisted mid-play (the save effect
runs on every state change, so a reload while `playing` finds one). -/
def midPlaySnapshot : PersistedGameState :=
  { date := "2025-06-05"
    gameState := .playing
    score := 50
    correctWordCount := 1
    timeLeft := 30
    attempts := ["cat", "", ""]
    currentWordIndex := 1
    userInput := "do" }

/-- The final state of a Practice session: same shape as a Daily one. -/
def practiceFinished : PersistedGameState :=
  { date := "2025-06-05"
    gameState := .finished
    score := 100
    correctWordCount := 2
    timeLeft := 20
    attempts := ["cat", "dg", "sun"]
    currentWordIndex := 2
    userInput := "sun" }

/-! ### Helper lemmas -/

theorem size_swapAt (a : Array α) (i j : Nat) : (swapAt a i j).size = a.size := by
  unfold swapAt
  split
  · exact Array.size_swap a _ _
  · rfl

theorem size_shuffleAux (a : Array α) (v k : Nat) : (shuffleAux a v k).size = a.size := by
  induction k generalizing a v with
  | zero => rfl
  | succ k ih =>
      unfold shuffleAux
      rw [ih, size_swapAt]

theorem length_deterministicShuffle (l : List α) (seed : Nat) :
    (deterministicShuffle l seed).length = l.length := by
  unfold deterministicShuffle
  rw [Array.length_toList, size_shuffleAux]

theorem handleSubmit_timeLeft (selectedWords : List Word) (s : PersistedGameState) :
    (handleSubmit selectedWords s).timeLeft = s.timeLeft := by
  unfold handleSubmit
  cases selectedWords[s.currentWordIndex]? with
  | none => rfl
  | some w =>
      dsimp only
      split <;> rfl

theorem handleGameEnd_timeLeft (s : PersistedGameState) :
    (handleGameEnd s).timeLeft = s.timeLeft := rfl

theorem timerEffect_timeLeft (s : PersistedGameState) :
    (timerEffect s).timeLeft = s.timeLeft := by
  unfold timerEffect
  split <;> rfl

/-! ### Claim theorems -/

/-- C4: `recordGame` called with a date equal to `lastPlayedDate` leaves
the streak record unchanged; on a date exactly one calendar day after
`lastPlayedDate` the streak increments; with no prior play, or with a gap
of two or more days, it resets to 1; every non-no-op call sets
`longestStreak` to the maximum of itself and the new streak, increments
`totalGamesPlayed`, adds the final score to `totalScore`, and stamps
`lastPlayedDate`; and the invariant `currentStreak ≤ longestStreak` is
preserved by every operation. -/
theorem recordGame_streak_laws (score d : Int) (prev : StreakData)
    (hinv : prev.currentStreak ≤ prev.longestStreak) :
    (prev.lastPlayedDate = some d → recordGame score d prev = prev) ∧
    (prev.lastPlayedDate = some (d - 1) →
      (recordGame score d prev).currentStreak = prev.currentStreak + 1) ∧
    (prev.lastPlayedDate = none → (recordGame score d prev).currentStreak = 1) ∧
    (∀ l : Int, prev.lastPlayedDate = some l → l + 2 ≤ d →
      (recordGame score d prev).currentStreak = 1) ∧
    (prev.lastPlayedDate ≠ some d →
      (recordGame score d prev).longestStreak =
        max (recordGame score d prev).currentStreak prev.longestStreak ∧
      (recordGame score d prev).totalGamesPlayed = prev.totalGamesPlayed + 1 ∧
      (recordGame score d prev).totalScore = prev.totalScore + score ∧
      (recordGame score d prev).lastPlayedDate = some d) ∧
    (recordGame score d prev).currentStreak ≤ (recordGame score d prev).longestStreak := by
  refine ⟨?_, ?_, ?_, ?_, ?_, ?_⟩
  · intro h
    simp [recordGame, h]
  · intro h
    have hne : prev.lastPlayedDate ≠ some d := by
      rw [h]
      intro hc
      have := Option.some.inj hc
      omega
    simp [recordGame, hne, h]
  · intro h
    simp [recordGame, h]
  · intro l hL hgap
    have hne : prev.lastPlayedDate ≠ some d := by
      rw [hL]
      intro hc
      have := Option.some.inj hc
      omega
    have hne2 : l ≠ d - 1 := by omega
    have hld : l ≠ d := by omega
    simp [recordGame, hne, hL, hne2, hld]
  · intro h
    simp [recordGame, h]
  · by_cases h : prev.lastPlayedDate = some d
    · simpa [recordGame, h] using hinv
    · simp [recordGame, h, le_max_left]

/-- Witness for `recordGame_streak_laws` at the initial streak record and
a first completion on day 5 with score 80. -/
theorem recordGame_streak_laws_witness :
    initialStreakData.currentStreak ≤ initialStreakData.longestStreak ∧
    (recordGame 80 5 initialStreakData).currentStreak ≤
      (recordGame 80 5 initialStreakData).longestStreak :=
  ⟨by decide, (recordGame_streak_laws 80 5 initialStreakData (by decide)).2.2.2.2.2⟩

/-- C5: daily selection is a deterministic pure function — identical pool,
difficulty and day index give identical ordered output, and whenever the
pool has at least three entries the output has exactly three elements.
The embedding is a total function of its arguments, so it depends on no
platform random source and leaves the input pool untouched. -/
theorem getTodayWords_deterministic (pool pool2 : List Word) (diff diff2 : Difficulty)
    (day day2 : Nat) (hp : pool = pool2) (hd : diff = diff2) (hday : day = day2)
    (hlen : 3 ≤ pool.length) :
    getTodayWords pool diff day = getTodayWords pool2 diff2 day2 ∧
    (getTodayWords pool diff day).length = 3 := by
  subst hp hd hday
  refine ⟨rfl, ?_⟩
  have hfilter : (pool.filter fun w => w.difficulty == diff).length ≤ pool.length :=
    List.length_filter_le _ _
  simp only [getTodayWords, WORDS_PER_GAME]
  split
  · rw [List.length_take]
    omega
  · rw [List.length_take, length_deterministicShuffle]
    omega

/-- Witness for `getTodayWords_deterministic` on the demo pool. -/
theorem getTodayWords_deterministic_witness :
    demoWords = demoWords ∧ Difficulty.easy = Difficulty.easy ∧ (42 : Nat) = 42 ∧
    3 ≤ demoWords.length ∧
    (getTodayWords demoWords .easy 42 = getTodayWords demoWords .easy 42 ∧
      (getTodayWords demoWords .easy 42).length = 3) :=
  ⟨rfl, rfl, rfl, by decide,
    getTodayWords_deterministic demoWords demoWords .easy .easy 42 42 rfl rfl rfl (by decide)⟩

/-- C6: the daily selection filters the pool by the requested difficulty;
with at least 3 matches it returns the first 3 elements of the
LCG-driven Fisher-Yates shuffle of the filtered pool, seeded with the day
index plus the difficulty offset (0 / 10000 / 20000), where the LCG step
is `state * 9301 + 49297 mod 233280`; with fewer than 3 matches it
returns an unfiltered 3-element slice of the pool. -/
theorem getTodayWords_algorithm (pool : List Word) (diff : Difficulty) (day : Nat) :
    (∀ v : Nat, lcgNext v = (v * 9301 + 49297) % 233280) ∧
    (diffOffset .easy = 0 ∧ diffOffset .medium = 10000 ∧ diffOffset .hard = 20000) ∧
    (3 ≤ (pool.filter fun w => w.difficulty == diff).length →
      getTodayWords pool diff day =
        (deterministicShuffle (pool.filter fun w => w.difficulty == diff)
          (day + diffOffset diff)).take 3) ∧
    ((pool.filter fun w => w.difficulty == diff).length < 3 →
      getTodayWords pool diff day = pool.take 3) := by
  refine ⟨fun v => rfl, ⟨rfl, rfl, rfl⟩, ?_, ?_⟩ <;> intro h <;>
    simp only [getTodayWords, WORDS_PER_GAME] <;> split <;> first | rfl | omega

/-- Witness for `getTodayWords_algorithm` on the demo pool, whose three
entries all match difficulty `easy`. -/
theorem getTodayWords_algorithm_witness :
    3 ≤ (demoWords.filter fun w => w.difficulty == Difficulty.easy).length ∧
    getTodayWords demoWords .easy 42 =
      (deterministicShuffle (demoWords.filter fun w => w.difficulty == Difficulty.easy)
        (42 + diffOffset .easy)).take 3 :=
  ⟨by decide, (getTodayWords_algorithm demoWords .easy 42).2.2.1 (by decide)⟩

theorem jsToLower_empty : jsToLower "" = "" := by decide

/-- The three fields `handleSubmit` changes in both of its branches, as
functions of the comparison of the trimmed, lowercased input with the
trimmed, lowercased canonical word. -/
theorem handleSubmit_components (selectedWords : List Word) (s : PersistedGameState)
    (w : Word) (hw : selectedWords[s.currentWordIndex]? = some w) :
    (handleSubmit selectedWords s).attempts
        = s.attempts.set s.currentWordIndex (jsTrim s.userInput) ∧
    (handleSubmit selectedWords s).score
        = (if jsToLower (jsTrim s.userInput) = jsToLower (jsTrim w.word)
           then s.score + 50 else s.score) ∧
    (handleSubmit selectedWords s).correctWordCount
        = (if jsToLower (jsTrim s.userInput) = jsToLower (jsTrim w.word)
           then s.correctWordCount + 1 else s.correctWordCount) := by
  unfold handleSubmit
  rw [hw]
  refine ⟨?_, ?_, ?_⟩ <;> dsimp only <;> split <;> rfl

/-- C7: submitting with a current word available compares the trimmed,
case-folded input to the trimmed, case-folded canonical word by exact
string equality; the trimmed raw input (possibly empty) is recorded into
`attempts[currentWordIndex]` regardless of correctness; the score grows by
50 and the correct count by 1 exactly when the strings are equal; and an
empty submission is processed as an ordinary incorrect attempt. -/
theorem handleSubmit_spec (selectedWords : List Word) (s : PersistedGameState) (w : Word)
    (hphase : s.gameState = GamePhase.playing)
    (hw : selectedWords[s.currentWordIndex]? = some w)
    (hatt : s.currentWordIndex < s.attempts.length) :
    (handleSubmit selectedWords s).attempts[s.currentWordIndex]?
        = some (jsTrim s.userInput) ∧
    (jsToLower (jsTrim s.userInput) = jsToLower (jsTrim w.word) →
      (handleSubmit selectedWords s).score = s.score + 50 ∧
      (handleSubmit selectedWords s).correctWordCount = s.correctWordCount + 1) ∧
    (jsToLower (jsTrim s.userInput) ≠ jsToLower (jsTrim w.word) →
      (handleSubmit selectedWords s).score = s.score ∧
      (handleSubmit selectedWords s).correctWordCount = s.correctWordCount) ∧
    (jsTrim s.userInput = "" → jsToLower (jsTrim w.word) ≠ "" →
      (handleSubmit selectedWords s).score = s.score ∧
      (handleSubmit selectedWords s).attempts[s.currentWordIndex]? = some "") := by
  obtain ⟨ha, hs, hc⟩ := handleSubmit_components selectedWords s w hw
  have hset := List.getElem?_set_eq_of_lt (jsTrim s.userInput) hatt
  refine ⟨?_, ?_, ?_, ?_⟩
  · rw [ha]
    exact hset
  · intro h
    rw [hs, hc, if_pos h, if_pos h]
    exact ⟨rfl, rfl⟩
  · intro h
    rw [hs, hc, if_neg h, if_neg h]
    exact ⟨rfl, rfl⟩
  · intro h1 h2
    have h : jsToLower (jsTrim s.userInput) ≠ jsToLower (jsTrim w.word) := by
      rw [h1, jsToLower_empty]
      exact fun he => h2 he.symm
    refine ⟨by rw [hs, if_neg h], ?_⟩
    rw [ha, h1]
    exact List.getElem?_set_eq_of_lt "" hatt

/-- Witness for `handleSubmit_spec`: submitting " CaT " against the word
"cat" is correct and scores 50. -/
theorem handleSubmit_spec_witness :
    jsToLower (jsTrim submitState.userInput) = jsToLower (jsTrim demoCat.word) ∧
    (handleSubmit demoWords submitState).score = submitState.score + 50 ∧
    (handleSubmit demoWords submitState).correctWordCount
      = submitState.correctWordCount + 1 :=
  ⟨by decide,
    (handleSubmit_spec demoWords submitState demoCat (by decide) (by decide)
      (by decide)).2.1 (by decide)⟩

/-- C2 counterexample: a snapshot persisted mid-play and dated today is
restored verbatim with phase `playing`, not forced into `finished`. -/
theorem load_today_not_forced_finished :
    (loadGameState (some (.valid midPlaySnapshot)) "2025-06-05"
        (initialFields "2025-06-05")).gameState ≠ GamePhase.finished := by
  decide

/-- C2 amended: a same-day stored snapshot is restored verbatim, so the
restored phase is whatever phase was stored — in particular a Finished
snapshot dated today yields `finished` with the exact prior score — while
a stale snapshot is discarded in favour of the fresh initial Ready state. -/
theorem load_restores_verbatim (p initialState : PersistedGameState) (today : String) :
    (p.date = today → loadGameState (some (.valid p)) today initialState = p) ∧
    (p.date = today → p.gameState = GamePhase.finished →
      (loadGameState (some (.valid p)) today initialState).gameState
          = GamePhase.finished ∧
      (loadGameState (some (.valid p)) today initialState).score = p.score) ∧
    (p.date ≠ today →
      loadGameState (some (.valid p)) today initialState
        = freshState today initialState) ∧
    loadGameState none today (initialFields today) = initialFields today ∧
    (freshState today (initialFields today)).gameState = GamePhase.ready := by
  refine ⟨?_, ?_, ?_, rfl, rfl⟩
  · intro h
    simp [loadGameState, h]
  · intro h hf
    simp [loadGameState, h, hf]
  · intro h
    simp [loadGameState, h]

/-- Witness for `load_restores_verbatim`: a finished snapshot dated today
reloads as `finished` with the same score. -/
theorem load_restores_verbatim_witness :
    dailyFinishedSnapshot.date = "2025-06-05" ∧
    dailyFinishedSnapshot.gameState = GamePhase.finished ∧
    (loadGameState (some (.valid dailyFinishedSnapshot)) "2025-06-05"
        (initialFields "2025-06-05")).gameState = GamePhase.finished ∧
    (loadGameState (some (.valid dailyFinishedSnapshot)) "2025-06-05"
        (initialFields "2025-06-05")).score = dailyFinishedSnapshot.score :=
  ⟨rfl, rfl,
    ((load_restores_verbatim dailyFinishedSnapshot (initialFields "2025-06-05")
        "2025-06-05").2.1 rfl rfl).1,
    ((load_restores_verbatim dailyFinishedSnapshot (initialFields "2025-06-05")
        "2025-06-05").2.1 rfl rfl).2⟩

/-- C3 counterexample: the save effect fires for a Practice-mode state
change exactly as for Daily; persisting the finished Practice session
writes it to the (previously empty) store. -/
theorem practice_session_write_occurs :
    saveStateEffect GameMode.practice practiceFinished none ≠ none ∧
    saveStateEffect GameMode.practice practiceFinished none
      = some (StoredSession.valid practiceFinished) := by
  exact ⟨by decide, rfl⟩

/-- C3 amended: every session state change, Daily or Practice, is written
unconditionally to the single day-keyed store, and a reload the same day
restores it — Practice sessions are persisted, not ephemeral. -/
theorem practice_sessions_persisted (mode : GameMode) (s initialState : PersistedGameState)
    (store : Option StoredSession) (today : String) (hd : s.date = today) :
    saveStateEffect mode s store = some (StoredSession.valid s) ∧
    loadGameState (saveStateEffect mode s store) today initialState = s := by
  exact ⟨rfl, by simp [saveStateEffect, loadGameState, hd]⟩

/-- Witness for `practice_sessions_persisted` on the finished Practice
session. -/
theorem practice_sessions_persisted_witness :
    practiceFinished.date = "2025-06-05" ∧
    loadGameState (saveStateEffect GameMode.practice practiceFinished none)
        "2025-06-05" (initialFields "2025-06-05") = practiceFinished :=
  ⟨rfl,
    (practice_sessions_persisted GameMode.practice practiceFinished
      (initialFields "2025-06-05") none "2025-06-05" rfl).2⟩

/-- C9: corrupt stored data is treated as absent — the session loader
returns the fresh default state and the streak loader returns the zeroed
record, without failing — and the first run of each save effect overwrites
the corrupt entry with the serialized fresh default, clearing it. -/
theorem corrupt_storage_fails_open (today : String) (initialState : PersistedGameState)
    (mode : GameMode) :
    loadGameState (some StoredSession.corrupt) today initialState
        = freshState today initialState ∧
    (mountGameState (some StoredSession.corrupt) today initialState mode).2
        = some (StoredSession.valid (freshState today initialState)) ∧
    loadGameState (some StoredSession.corrupt) today (initialFields today)
        = initialFields today ∧
    (initialFields today).gameState = GamePhase.ready ∧
    loadStreak (some StoredStreak.corrupt) = initialStreakData ∧
    (mountStreak (some StoredStreak.corrupt)).2
        = some (StoredStreak.valid initialStreakData) := by
  exact ⟨rfl, rfl, rfl, rfl, rfl, rfl⟩

/-- C8 counterexample: at the instant 2023-01-02T03:00:00Z — 97200000 ms
after the reference epoch, with the Los Angeles offset at 8 hours
(28800000 ms, PST) — the share day number is 1 while the selection day
index is 0, because Los Angeles is still on calendar day 2023-01-01. -/
theorem dayNumber_formulas_differ :
    getGameDayNumber 97200000 = 1 ∧
    selectionDayIndex 97200000 28800000 = 0 ∧
    getGameDayNumber 97200000 ≠ selectionDayIndex 97200000 28800000 := by
  decide

/-- C8 amended: the selection day index equals the Los Angeles calendar
day count, while `getGameDayNumber` counts whole UTC days at the current
instant; the two agree exactly at the instants when at least the LA
offset has elapsed since UTC midnight, and in the earlier hours of each
UTC day the share number exceeds the selection index by one. -/
theorem dayNumber_vs_selection (t laOffset : Int) (h0 : 0 ≤ laOffset)
    (h1 : laOffset < msPerDay) :
    selectionDayIndex t laOffset = laDateIndex t laOffset ∧
    getGameDayNumber t
      = laDateIndex t laOffset + (if t % msPerDay < laOffset then 1 else 0) ∧
    (getGameDayNumber t = selectionDayIndex t laOffset ↔ laOffset ≤ t % msPerDay) := by
  unfold msPerDay at h1
  unfold selectionDayIndex laMidnightUtc laDateIndex getGameDayNumber msPerDay
  have hconj : ((t - laOffset) / 86400000 * 86400000 + laOffset) / 86400000
        = (t - laOffset) / 86400000 ∧
      t / 86400000
        = (t - laOffset) / 86400000 + (if t % 86400000 < laOffset then 1 else 0) := by
    constructor
    · omega
    · split <;> omega
  refine ⟨hconj.1, hconj.2, ?_⟩
  rw [hconj.1, hconj.2]
  split <;> omega

/-- Witness for `dayNumber_vs_selection` at 2023-01-02T03:00:00Z with the
PST offset. -/
theorem dayNumber_vs_selection_witness :
    (0 : Int) ≤ 28800000 ∧ (28800000 : Int) < msPerDay ∧
    (getGameDayNumber 97200000 = selectionDayIndex 97200000 28800000 ↔
      (28800000 : Int) ≤ 97200000 % msPerDay) :=
  ⟨by decide, by decide,
    (dayNumber_vs_selection 97200000 28800000 (by decide) (by decide)).2.2⟩

/-- C1 (the code evaluated at the failing input): submitting all three
words correctly with the full 60 seconds remaining transitions the
session to `finished` with score 150 = 3 × 50 and `timeLeft = 60`; the
end-of-session time bonus (which would make the score 150 + 60 = 210) is
never added, because `handleGameEnd` fires only from the timer effect at
`timeLeft = 0`, where the bonus is zero. -/
theorem submit_finish_omits_time_bonus :
    fastPerfectRun.gameState = GamePhase.finished ∧
    fastPerfectRun.timeLeft = 60 ∧
    fastPerfectRun.score = 150 ∧
    fastPerfectRun.score ≠ 150 + fastPerfectRun.timeLeft := by
  decide

theorem reachable_timeLeft_bounds {selectedWords : List Word} {s : PersistedGameState}
    (h : Reachable selectedWords s) : 0 ≤ s.timeLeft ∧ s.timeLeft ≤ 60 := by
  induction h with
  | init today =>
      constructor <;> simp [initialFields, TOTAL_TIME]
  | start h ih =>
      rw [timerEffect_timeLeft]
      unfold startGame
      split
      · exact ih
      · constructor <;> simp [setStateToInitial, TOTAL_TIME]
  | reset h ih =>
      rw [timerEffect_timeLeft]
      constructor <;> simp [setStateToInitial, TOTAL_TIME]
  | input inp h ih =>
      rw [timerEffect_timeLeft]
      unfold setUserInput
      split
      · exact ih
      · exact ih
  | submit h ih =>
      rw [timerEffect_timeLeft, handleSubmit_timeLeft]
      exact ih
  | tick h ih =>
      rw [timerEffect_timeLeft]
      unfold tick
      split
      · rename_i hc
        dsimp only
        omega
      · exact ih

/-- C10: in every state of a Daily session reachable from the initial
state, the countdown satisfies 0 ≤ timeLeft ≤ 60 — a tick is only
processed while playing with time remaining — and consequently the time
bonus `handleGameEnd` adds is non-negative. -/
theorem reachable_time_invariant (selectedWords : List Word) (s : PersistedGameState)
    (h : Reachable selectedWords s) :
    0 ≤ s.timeLeft ∧ s.timeLeft ≤ 60 ∧ s.score ≤ (handleGameEnd s).score := by
  obtain ⟨h0, h1⟩ := reachable_timeLeft_bounds h
  refine ⟨h0, h1, ?_⟩
  unfold handleGameEnd
  dsimp only
  omega

/-- Witness for `reachable_time_invariant` at the freshly initialized
state. -/
theorem reachable_time_invariant_witness :
    0 ≤ (initialFields "2025-06-05").timeLeft ∧
    (initialFields "2025-06-05").timeLeft ≤ 60 ∧
    (initialFields "2025-06-05").score
      ≤ (handleGameEnd (initialFields "2025-06-05")).score :=
  reachable_time_invariant demoWords (initialFields "2025-06-05")
    (Reachable.init "2025-06-05")

end SpellingB
